import Mathlib

/-!
Verification of the Enscriber userscript (src/enscriber.user.js).

The development shallowly embeds the parts of the script relevant to element
metadata capture, XPath generation, action classification, the recording
session state machine, self-capture exclusion, session appends, and the state
manager, and proves (or refutes) the specification claims about them.

Modelling conventions:
* The document tree is an inductive rose tree `Dom`; a particular element is
  addressed by the root tree together with a path of child indices, which
  makes the script's `parentElement` / `previousElementSibling` walks
  expressible as pure recursions.
* Browser-environment reads (geometry, computed style, URL, clock) are passed
  in explicitly as data; `Date.now()` becomes a `now : Nat` argument.
* JavaScript truthiness on strings is modelled as inequality with `""`;
  `a || b` on strings becomes `if a ≠ "" then a else b`.
* `console.warn` rejection paths are modelled by returning the warning text
  alongside the (unchanged) state, so that rejection is observable.
-/

namespace Enscriber

/-- A DOM element: DOM tag name (as `element.tagName` reports it), `id`
attribute (`""` when absent, matching the DOM's empty-string default),
`className` (`none` models a non-string `className` such as an SVG element's
`SVGAnimatedString`, which the script's `typeof === 'string'` guard skips),
attribute list in document order, the node's `textContent` as the DOM reports
it, and child elements in document order. -/
inductive Dom where
  | node (tag : String) (id : String) (className : Option String)
      (attrs : List (String × String)) (text : String) (children : List Dom)

/-- DOM tag name of an element. -/
def Dom.tag : Dom → String
  | .node t _ _ _ _ _ => t

/-- `element.id` (empty string when the attribute is absent). -/
def Dom.idAttr : Dom → String
  | .node _ i _ _ _ _ => i

/-- `element.className`, `none` when it is not a string. -/
def Dom.className : Dom → Option String
  | .node _ _ c _ _ _ => c

/-- Attribute list of an element (`element.attributes`). -/
def Dom.attrs : Dom → List (String × String)
  | .node _ _ _ a _ _ => a

/-- `element.textContent`. -/
def Dom.text : Dom → String
  | .node _ _ _ _ s _ => s

/-- Child elements (`element.children`). -/
def Dom.children : Dom → List Dom
  | .node _ _ _ _ _ cs => cs

/-- Resolve a path of child indices from a root element to the addressed
descendant element, if the path is valid. -/
def getNode : Dom → List Nat → Option Dom
  | t, [] => some t
  | t, i :: rest =>
      match t.children[i]? with
      | none => none
      | some c => getNode c rest

/-- JavaScript `String.prototype.includes` on character lists: `pat` occurs
contiguously in the list. -/
def charsInclude (pat : List Char) : List Char → Bool
  | [] => pat.isEmpty
  | c :: rest => pat.isPrefixOf (c :: rest) || charsInclude pat rest

/-- JavaScript `s.includes(pat)`. -/
def strIncludes (s pat : String) : Bool :=
  charsInclude pat.data s.data

/-- JavaScript `s.toLowerCase()` (character-wise lowercasing, written over the
character list so that it evaluates in the kernel). -/
def jsToLower (s : String) : String := ⟨s.data.map Char.toLower⟩

/-- JavaScript `s.substring(0, n)` (truncation to at most `n` characters). -/
def jsTake (s : String) (n : Nat) : String := ⟨s.data.take n⟩

/-- Whitespace test used by `trim`: code points up to U+0020. -/
def charIsWs (c : Char) : Bool := c.toNat ≤ 32

/-- JavaScript `s.trim()`: strip leading and trailing whitespace. -/
def jsTrim (s : String) : String :=
  ⟨((s.data.dropWhile charIsWs).reverse.dropWhile charIsWs).reverse⟩

/-- Embedding of the inner `while (sibling)` loop of
`ElementSelector.generateXPath` (src/enscriber.user.js:958-963): walk the
`previousElementSibling` chain, incrementing the accumulator for every sibling
whose `tagName` equals the target tag.  The sibling chain of the child at
index `i` is the reversed prefix `(children.take i).reverse`. -/
def siblingIndexLoop (tag : String) : List Dom → Nat → Nat
  | [], acc => acc
  | s :: rest, acc => siblingIndexLoop tag rest (if s.tag == tag then acc + 1 else acc)

/-- One path component of the positional XPath
(src/enscriber.user.js:965-966): `tag[index]` when the 1-based index exceeds
1, bare `tag` otherwise; the tag name is lowercased. -/
def xpathPart (tag : String) (idx : Nat) : String :=
  if idx > 1 then jsToLower tag ++ "[" ++ toString idx ++ "]" else jsToLower tag

/-- The 1-based index `generateXPath` computes for the child at position `i`
of a sibling list: `siblingIndexLoop` started at 1 over the
`previousElementSibling` chain, which is the reversed prefix of the sibling
list. -/
def codeSiblingIndex (cs : List Dom) (i : Nat) (tag : String) : Nat :=
  siblingIndexLoop tag ((cs.take i).reverse) 1

/-- The positional parts accumulated by the `while (current ...)` loop of
`ElementSelector.generateXPath` for the strict descendants along a path:
at each level the 1-based index among preceding same-tag siblings is computed
by `siblingIndexLoop`, and the part is prepended (`parts.unshift`). -/
def positionalParts (t : Dom) : List Nat → Option (List String)
  | [] => some []
  | i :: rest =>
      match t.children[i]? with
      | none => none
      | some c =>
          match positionalParts c rest with
          | none => none
          | some parts => some (xpathPart c.tag (codeSiblingIndex t.children i c.tag) :: parts)

/-- Embedding of `ElementSelector.generateXPath`
(src/enscriber.user.js:944-973) for the element addressed by `p` inside
`root`.  If the element's own `id` is truthy the function returns
`//*[@id="..."]` immediately; otherwise it walks to the root building the
positional path.  The root element itself has no preceding siblings, so its
index is 1 and its part is the bare lowercased tag. -/
def generateXPath (root : Dom) (p : List Nat) : Option String :=
  match getNode root p with
  | none => none
  | some n =>
      if n.idAttr ≠ "" then
        some ("//*[@id=\"" ++ n.idAttr ++ "\"]")
      else
        match positionalParts root p with
        | none => none
        | some parts => some ("/" ++ "/".intercalate (xpathPart root.tag 1 :: parts))

/-- A geometry rectangle as returned by `getBoundingClientRect`. -/
structure Rect where
  x : Int
  y : Int
  top : Int
  left : Int
  width : Int
  height : Int
deriving DecidableEq

/-- The all-zero rectangle substituted by `EnscribeUtils.getElementBounds`
when `getBoundingClientRect` throws (src/enscriber.user.js:152-159). -/
def zeroRect : Rect := ⟨0, 0, 0, 0, 0, 0⟩

/-- The computed-style values the script reads
(`display`, `visibility`, `opacity`, `z-index`). -/
structure Styles where
  display : String
  visibility : String
  opacity : String
  zIndex : String
deriving DecidableEq

/-- Browser-environment facts about one element, supplied by the host:
the result of `getBoundingClientRect` (`none` when the call throws) and the
computed style. -/
structure EnvFacts where
  boundsResult : Option Rect
  styles : Styles
deriving DecidableEq

/-- Embedding of `EnscribeUtils.getElementBounds`
(src/enscriber.user.js:152-159): the geometry rectangle, with the all-zero
rectangle substituted when the underlying query throws. -/
def getElementBounds (env : EnvFacts) : Rect :=
  env.boundsResult.getD zeroRect

/-- Embedding of `EnscribeUtils.isElementVisible`
(src/enscriber.user.js:166-177). -/
def isElementVisible (env : EnvFacts) : Bool :=
  env.styles.display != "none" && env.styles.visibility != "hidden" &&
    env.styles.opacity != "0" && decide (0 < (getElementBounds env).width) &&
    decide (0 < (getElementBounds env).height)

/-- The `position` object literal built inside `captureElementMetadata`
(src/enscriber.user.js:891-896): `{x: bounds.left, y: bounds.top, width,
height}`. -/
structure Position where
  x : Int
  y : Int
  width : Int
  height : Int
deriving DecidableEq

/-- Parent-context snapshot built by `ElementSelector.getParentContext`
(src/enscriber.user.js:927-937). -/
structure ParentContext where
  tagName : String
  id : Option String
  className : Option String
  childIndex : Int
deriving DecidableEq

/-- The metadata object returned by `ElementSelector.captureElementMetadata`
(src/enscriber.user.js:881-907).  Its fields are exactly the keys of the
returned object literal: note that the only synthesized selector it carries is
the single `xpath` string — there is no `selectors`/`SelectorSet` field,
although the script's own `ElementMetadata` typedef
(src/enscriber.user.js:70-79) declares one. -/
structure ElementMetadata where
  tagName : String
  id : Option String
  className : Option String
  textContent : Option String
  attributes : List (String × String)
  position : Position
  isVisible : Bool
  computedStyles : Styles
  parentContext : Option ParentContext
  xpath : String
deriving DecidableEq

/-- Embedding of `ElementSelector.getParentContext`
(src/enscriber.user.js:927-937) for the element addressed by `p`: `none` when
the element has no parent element (`p = []`), otherwise the parent's tag, id,
class and the element's index in `parent.children` (`indexOf`, `-1` never
arises since the child is present). -/
def getParentContext (root : Dom) (p : List Nat) : Option (Option ParentContext) :=
  match getNode root p with
  | none => none
  | some _ =>
      match p.getLast? with
      | none => some none
      | some i =>
          match getNode root p.dropLast with
          | none => none
          | some parent =>
              some (some {
                tagName := jsToLower parent.tag,
                id := if parent.idAttr ≠ "" then some parent.idAttr else none,
                className := match parent.className with
                  | some c => if c ≠ "" then some c else none
                  | none => none,
                childIndex := (i : Int) })

/-- Embedding of `ElementSelector.captureElementMetadata`
(src/enscriber.user.js:881-907) for the element addressed by `p` inside
`root`, with the browser-environment facts `env`.  Truthiness defaults follow
the source: `element.id || null`, `element.className || null`, and
`textContent` trimmed and truncated to 100 characters when truthy. -/
def captureElementMetadata (env : EnvFacts) (root : Dom) (p : List Nat) :
    Option ElementMetadata :=
  match getNode root p, getParentContext root p, generateXPath root p with
  | some e, some pc, some xp =>
  let bounds := getElementBounds env
  some {
    tagName := jsToLower e.tag,
    id := if e.idAttr ≠ "" then some e.idAttr else none,
    className := match e.className with
      | some c => if c ≠ "" then some c else none
      | none => none,
    textContent := if e.text ≠ "" then some (jsTake (jsTrim e.text) 100) else none,
    attributes := e.attrs,
    position := { x := bounds.left, y := bounds.top,
                  width := bounds.width, height := bounds.height },
    isVisible := isElementVisible env,
    computedStyles := env.styles,
    parentContext := pc,
    xpath := xp }
  | _, _, _ => none

/-- Specification-side formula for the positional index: 1 plus the number of
preceding siblings sharing the tag (the spec's "counting preceding siblings
sharing the same tag to compute a 1-based index"). -/
def xpathIndexSpec (cs : List Dom) (i : Nat) (tag : String) : Nat :=
  1 + (cs.take i).countP (fun c => c.tag == tag)

/-- Specification-side positional parts, written with `xpathIndexSpec`. -/
def positionalPartsSpec (t : Dom) : List Nat → Option (List String)
  | [] => some []
  | i :: rest =>
      match t.children[i]? with
      | none => none
      | some c =>
          match positionalPartsSpec c rest with
          | none => none
          | some parts => some (xpathPart c.tag (xpathIndexSpec t.children i c.tag) :: parts)

/-- Specification-side fully positional XPath: walk from the node to the
root, record `tag[index]` only when the 1-based same-tag index exceeds 1. -/
def positionalXPathSpec (root : Dom) (p : List Nat) : Option String :=
  match positionalPartsSpec root p with
  | none => none
  | some parts => some ("/" ++ "/".intercalate (xpathPart root.tag 1 :: parts))

/-- The structural identification key sequence underlying the positional
XPath built by `generateXPath`: at each level the (tag, 1-based same-tag
index) pair its loop computes. -/
def positionalKeys (t : Dom) : List Nat → Option (List (String × Nat))
  | [] => some []
  | i :: rest =>
      match t.children[i]? with
      | none => none
      | some c =>
          match positionalKeys c rest with
          | none => none
          | some ks => some ((c.tag, codeSiblingIndex t.children i c.tag) :: ks)

/-- The id of the nearest ancestor (the node itself excluded) carrying a
non-empty id, read off the root-to-node path; `none` when no ancestor has an
id.  This is the anchor the specification's XPath strategy says should be
used. -/
def nearestAncestorId (root : Dom) (p : List Nat) : Option String :=
  match p with
  | [] => none
  | i :: rest =>
      match root.children[i]?  with
      | none => none
      | some c =>
          match nearestAncestorId c rest with
          | some a => some a
          | none => if root.idAttr ≠ "" then some root.idAttr else none

/-! ### Helper lemmas -/

/-- A string with a non-empty left part is non-empty. -/
theorem append_ne_empty_left (s t : String) (h : s ≠ "") : s ++ t ≠ "" := by
  intro he
  have hd := congrArg String.data he
  rw [String.data_append] at hd
  have h2 : s.data = [] := (List.append_eq_nil.mp hd).1
  apply h
  cases s with
  | _ d =>
    simp only [String.data] at h2
    subst h2
    rfl

/-- The sibling-walk counter equals its start plus the number of same-tag
elements in the walked list. -/
theorem siblingIndexLoop_eq (tag : String) (l : List Dom) (acc : Nat) :
    siblingIndexLoop tag l acc = acc + l.countP (fun s => s.tag == tag) := by
  induction l generalizing acc with
  | nil => simp [siblingIndexLoop, List.countP_nil]
  | cons s rest ih =>
      rw [siblingIndexLoop, ih, List.countP_cons]
      by_cases h : s.tag == tag
      · simp [h]; omega
      · simp [h]

/-- The code's 1-based positional index agrees with the specification formula
"1 + number of preceding siblings sharing the same tag". -/
theorem codeSiblingIndex_eq_spec (cs : List Dom) (i : Nat) (tag : String) :
    codeSiblingIndex cs i tag = xpathIndexSpec cs i tag := by
  rw [codeSiblingIndex, xpathIndexSpec, siblingIndexLoop_eq, List.countP_reverse]

/-- Same-tag prefix counts are monotone in the prefix length. -/
theorem countP_take_le (p : Dom → Bool) (cs : List Dom) {i j : Nat} (h : i ≤ j) :
    (cs.take i).countP p ≤ (cs.take j).countP p := by
  have hj : j = i + (j - i) := by omega
  rw [hj, List.take_add, List.countP_append]
  omega

/-- Exact difference of positional indices of two sibling positions: the
number of same-tag siblings in the half-open segment between them. -/
theorem codeSiblingIndex_diff (cs : List Dom) {i j : Nat} (h : i ≤ j) (tag : String) :
    codeSiblingIndex cs j tag
      = codeSiblingIndex cs i tag + ((cs.drop i).take (j - i)).countP (fun s => s.tag == tag) := by
  rw [codeSiblingIndex_eq_spec, codeSiblingIndex_eq_spec, xpathIndexSpec, xpathIndexSpec]
  have hj : j = i + (j - i) := by omega
  conv_lhs => rw [hj, List.take_add, List.countP_append]
  omega

/-- Strict monotonicity of the positional index across two same-tag sibling
positions: the earlier position's element contributes to the later count. -/
theorem codeSiblingIndex_lt (cs : List Dom) {i j : Nat} (hij : i < j)
    (hi : i < cs.length) (tag : String) (htag : cs[i].tag = tag) :
    codeSiblingIndex cs i tag < codeSiblingIndex cs j tag := by
  rw [codeSiblingIndex_eq_spec, codeSiblingIndex_eq_spec, xpathIndexSpec, xpathIndexSpec]
  have hsucc : (cs.take (i + 1)).countP (fun s => s.tag == tag)
      = (cs.take i).countP (fun s => s.tag == tag) + 1 := by
    rw [List.take_succ, List.countP_append]
    rw [List.getElem?_eq_getElem hi]
    simp [List.countP_cons, htag]
  have hle : (cs.take (i + 1)).countP (fun s => s.tag == tag)
      ≤ (cs.take j).countP (fun s => s.tag == tag) := countP_take_le _ cs hij
  omega

/-- Two valid paths producing the same structural key sequence are equal:
the (tag, positional index) pairs computed by `generateXPath`'s loop identify
a node uniquely relative to the root. -/
theorem positionalKeys_injective :
    ∀ (p : List Nat) (t : Dom) (q : List Nat) (ks : List (String × Nat)),
      positionalKeys t p = some ks → positionalKeys t q = some ks → p = q := by
  intro p
  induction p with
  | nil =>
      intro t q ks hp hq
      rw [positionalKeys] at hp
      injection hp with hks
      subst hks
      cases q with
      | nil => rfl
      | cons j qr =>
          rw [positionalKeys] at hq
          cases hc : t.children[j]? with
          | none => simp [hc] at hq
          | some c =>
              simp only [hc] at hq
              cases hk : positionalKeys c qr with
              | none => simp [hk] at hq
              | some ks1 => simp [hk] at hq
  | cons i pr ih =>
      intro t q ks hp hq
      rw [positionalKeys] at hp
      cases hc : t.children[i]? with
      | none => simp [hc] at hp
      | some c =>
          simp only [hc] at hp
          cases hk : positionalKeys c pr with
          | none => simp [hk] at hp
          | some ks1 =>
              simp only [hk] at hp
              injection hp with hks
              cases q with
              | nil =>
                  rw [positionalKeys] at hq
                  injection hq with hq2
                  rw [← hks] at hq2
                  exact absurd hq2 (by simp)
              | cons j qr =>
                  rw [positionalKeys] at hq
                  cases hd : t.children[j]? with
                  | none => simp [hd] at hq
                  | some d =>
                      simp only [hd] at hq
                      cases hk2 : positionalKeys d qr with
                      | none => simp [hk2] at hq
                      | some ks2 =>
                          simp only [hk2] at hq
                          injection hq with hks2
                          rw [← hks] at hks2
                          injection hks2 with hhead htail
                          have htag : d.tag = c.tag := congrArg Prod.fst hhead
                          have hidx : codeSiblingIndex t.children j d.tag
                              = codeSiblingIndex t.children i c.tag := congrArg Prod.snd hhead
                          rw [htag] at hidx
                          have hci : i < t.children.length := by
                            by_contra hlt
                            rw [List.getElem?_eq_none (by omega)] at hc
                            exact absurd hc (by simp)
                          have hcj : j < t.children.length := by
                            by_contra hlt
                            rw [List.getElem?_eq_none (by omega)] at hd
                            exact absurd hd (by simp)
                          have hgi : t.children[i] = c := by
                            rw [List.getElem?_eq_getElem hci] at hc
                            injection hc
                          have hgj : t.children[j] = d := by
                            rw [List.getElem?_eq_getElem hcj] at hd
                            injection hd
                          have hij : i = j := by
                            rcases Nat.lt_trichotomy i j with hlt | heq | hgt
                            · have := codeSiblingIndex_lt t.children hlt hci c.tag
                                (by rw [hgi])
                              omega
                            · exact heq
                            · have := codeSiblingIndex_lt t.children hgt hcj c.tag
                                (by rw [hgj]; exact htag)
                              omega
                          subst hij
                          have hcd : c = d := by rw [← hgi, hgj]
                          subst hcd
                          have : pr = qr := ih c qr ks1 hk (htail ▸ hk2)
                          rw [this]

/-- Path resolution splits over list append. -/
theorem getNode_append (a b : List Nat) (t : Dom) :
    getNode t (a ++ b) =
      (match getNode t a with
        | none => none
        | some m => getNode m b) := by
  induction a generalizing t with
  | nil => simp [getNode]
  | cons i rest ih =>
      rw [List.cons_append, getNode, getNode]
      cases hc : t.children[i]? with
      | none => rfl
      | some c => exact ih c

/-- A prefix of a valid path is valid. -/
theorem getNode_dropLast {t : Dom} {p : List Nat} {n : Dom} (hne : p ≠ [])
    (h : getNode t p = some n) : ∃ m, getNode t p.dropLast = some m := by
  have hsplit : p.dropLast ++ [p.getLast hne] = p := List.dropLast_append_getLast hne
  rw [← hsplit, getNode_append] at h
  cases hm : getNode t p.dropLast with
  | none => rw [hm] at h; exact absurd h (by simp)
  | some m => exact ⟨m, rfl⟩

/-- The positional-parts walk succeeds on every valid path. -/
theorem positionalParts_isSome {t : Dom} {p : List Nat} {n : Dom}
    (h : getNode t p = some n) : ∃ parts, positionalParts t p = some parts := by
  induction p generalizing t with
  | nil => exact ⟨[], rfl⟩
  | cons i rest ih =>
      rw [getNode] at h
      cases hc : t.children[i]? with
      | none => rw [hc] at h; exact absurd h (by simp)
      | some c =>
          rw [hc] at h
          obtain ⟨parts, hparts⟩ := ih h
          refine ⟨xpathPart c.tag (codeSiblingIndex t.children i c.tag) :: parts, ?_⟩
          simp only [positionalParts, hc, hparts]

/-- `generateXPath` succeeds on every valid path and never returns the empty
string: in the worst case the fully positional path starts with `/`. -/
theorem generateXPath_isSome_ne_empty {root : Dom} {p : List Nat} {n : Dom}
    (h : getNode root p = some n) :
    ∃ s, generateXPath root p = some s ∧ s ≠ "" := by
  simp only [generateXPath, h]
  by_cases hid : n.idAttr ≠ ""
  · refine ⟨"//*[@id=\"" ++ n.idAttr ++ "\"]", by rw [if_pos hid], ?_⟩
    exact append_ne_empty_left _ _ (append_ne_empty_left _ _ (by decide))
  · obtain ⟨parts, hparts⟩ := positionalParts_isSome h
    rw [if_neg hid, hparts]
    exact ⟨_, rfl, append_ne_empty_left _ _ (by decide)⟩

/-- `getParentContext` succeeds on every valid path. -/
theorem getParentContext_isSome {root : Dom} {p : List Nat} {n : Dom}
    (h : getNode root p = some n) :
    ∃ pc, getParentContext root p = some pc := by
  simp only [getParentContext, h]
  cases hlast : p.getLast? with
  | none => exact ⟨none, by simp [hlast]⟩
  | some i =>
      have hne : p ≠ [] := by
        intro he
        rw [he] at hlast
        exact absurd hlast (by simp)
      obtain ⟨m, hm⟩ := getNode_dropLast hne h
      refine ⟨some {
        tagName := jsToLower m.tag,
        id := if m.idAttr ≠ "" then some m.idAttr else none,
        className := match m.className with
          | some c => if c ≠ "" then some c else none
          | none => none,
        childIndex := (i : Int) }, ?_⟩
      simp only [hlast, hm]

/-- The code's positional parts agree everywhere with the specification-side
positional parts (same walk, index written as the explicit
"1 + preceding same-tag siblings" formula). -/
theorem positionalParts_eq_spec (t : Dom) (p : List Nat) :
    positionalParts t p = positionalPartsSpec t p := by
  induction p generalizing t with
  | nil => rfl
  | cons i rest ih =>
      rw [positionalParts, positionalPartsSpec]
      cases hc : t.children[i]? with
      | none => simp only [hc]
      | some c => simp only [hc, ih c, codeSiblingIndex_eq_spec]

/-! ### Concrete fixtures -/

/-- A `<button data-testid="submit-btn">Submit</button>` element. -/
def demoButton : Dom :=
  .node "BUTTON" "" (some "") [("data-testid", "submit-btn")] "Submit" []

/-- A `<body>` wrapping the demo button. -/
def demoBody : Dom := .node "BODY" "" (some "") [] "Submit" [demoButton]

/-- A document whose only content is the demo button. -/
def demoDoc : Dom := .node "HTML" "" (some "") [] "Submit" [demoBody]

/-- Concrete browser facts for the demo button. -/
def demoEnv : EnvFacts :=
  { boundsResult := some ⟨10, 20, 20, 10, 120, 40⟩,
    styles := ⟨"block", "visible", "1", "auto"⟩ }

/-- A `<span>` with no id. -/
def demoSpan : Dom := .node "SPAN" "" (some "") [] "hi" []

/-- A `<div id="main-nav">` wrapping the span: an ancestor with a stable,
human-readable id. -/
def demoNav : Dom := .node "DIV" "main-nav" (some "") [] "hi" [demoSpan]

/-- `<body>` wrapping the nav div. -/
def demoBody2 : Dom := .node "BODY" "" (some "") [] "hi" [demoNav]

/-- Document for the ancestor-id scenario. -/
def demoDoc2 : Dom := .node "HTML" "" (some "") [] "hi" [demoBody2]

/-- A list `<ul>` with `<li>`, `<p>`, `<li>`, `<li>` children: same-tag
siblings in mixed positions. -/
def demoUl : Dom :=
  .node "UL" "" (some "") [] ""
    [.node "LI" "" (some "") [] "a" [],
     .node "P" "" (some "") [] "x" [],
     .node "LI" "" (some "") [] "b" [],
     .node "LI" "" (some "") [] "c" []]

/-- Document for the sibling-index scenario. -/
def demoDoc3 : Dom := .node "HTML" "" (some "") [] "" [demoUl]

/-! ### Claim theorems: selector synthesis and XPath (C1-C4) -/

/-- C1 (divergence evaluation): for a button carrying
`data-testid="submit-btn"`, the complete metadata captured by
`captureElementMetadata` contains exactly one synthesized selector — the
positional XPath string `"/html/body/button"` — and no data-attribute,
semantic, CSS or text-based candidates, no confidence scores and no `best`
selection.  The five-strategy confidence-ordered SelectorSet that the claim
(and the script's own `ElementMetadata`/`SelectorSet` typedefs,
src/enscriber.user.js:70-89) describes is not produced anywhere in the
implementation. -/
theorem captureMetadata_single_xpath_selector :
    captureElementMetadata demoEnv demoDoc [0, 0] = some {
      tagName := "button", id := none, className := none,
      textContent := some "Submit",
      attributes := [("data-testid", "submit-btn")],
      position := { x := 10, y := 20, width := 120, height := 40 },
      isVisible := true,
      computedStyles := ⟨"block", "visible", "1", "auto"⟩,
      parentContext := some ⟨"body", none, none, 0⟩,
      xpath := "/html/body/button" } := by decide

/-- C2: selector synthesis never fails and always yields a candidate — for
every element node (every valid path in every tree), `captureElementMetadata`
succeeds and the XPath selector it synthesizes is a non-empty string, because
a position-based XPath is always constructible. -/
theorem synthesize_always_nonempty (env : EnvFacts) (root : Dom) (p : List Nat)
    (n : Dom) (h : getNode root p = some n) :
    ∃ m, captureElementMetadata env root p = some m ∧ m.xpath ≠ "" := by
  obtain ⟨pc, hpc⟩ := getParentContext_isSome h
  obtain ⟨xp, hxp, hne⟩ := generateXPath_isSome_ne_empty h
  refine ⟨{
    tagName := jsToLower n.tag,
    id := if n.idAttr ≠ "" then some n.idAttr else none,
    className := match n.className with
      | some c => if c ≠ "" then some c else none
      | none => none,
    textContent := if n.text ≠ "" then some (jsTake (jsTrim n.text) 100) else none,
    attributes := n.attrs,
    position := { x := (getElementBounds env).left, y := (getElementBounds env).top,
                  width := (getElementBounds env).width,
                  height := (getElementBounds env).height },
    isVisible := isElementVisible env,
    computedStyles := env.styles,
    parentContext := pc,
    xpath := xp }, ?_, hne⟩
  simp only [captureElementMetadata, h, hpc, hxp]

/-- C2 witness: the theorem applied to the concrete demo document. -/
theorem synthesize_always_nonempty_witness :
    ∃ m, captureElementMetadata demoEnv demoDoc [0, 0] = some m ∧ m.xpath ≠ "" :=
  synthesize_always_nonempty demoEnv demoDoc [0, 0] demoButton rfl

/-- C3 counterexample: the `<span>` inside `<div id="main-nav">` has an
ancestor with a stable, human-readable id, yet `generateXPath` emits the
fully positional path from the document root, which does not reference that
ancestor id in any way — the implementation inspects only the node's own id,
never an ancestor's, so no anchored relative XPath is ever produced. -/
theorem xpath_ignores_ancestor_id :
    generateXPath demoDoc2 [0, 0, 0] = some "/html/body/div/span" ∧
    nearestAncestorId demoDoc2 [0, 0, 0] = some "main-nav" ∧
    strIncludes "/html/body/div/span" "main-nav" = false := by
  refine ⟨by decide, by decide, by decide⟩

/-- C3 (amended): `generateXPath` emits `//*[@id="..."]` anchored at the
node's own id whenever the node itself has a truthy id — with no stability
heuristic and no ancestor search — and otherwise emits the fully positional
XPath built by walking from the node to the root, at each level computing a
1-based index as one plus the number of preceding siblings sharing the same
tag, and recording `tag[index]` rather than bare `tag` only when the index
exceeds 1. -/
theorem xpath_own_id_or_positional (root : Dom) (p : List Nat) (n : Dom)
    (h : getNode root p = some n) :
    generateXPath root p =
      (if n.idAttr ≠ "" then some ("//*[@id=\"" ++ n.idAttr ++ "\"]")
       else positionalXPathSpec root p) := by
  simp only [generateXPath, h]
  by_cases hid : n.idAttr ≠ ""
  · rw [if_pos hid, if_pos hid]
  · rw [if_neg hid, if_neg hid, positionalXPathSpec, positionalParts_eq_spec]

/-- C3 witness: the amended theorem applied to the ancestor-id fixture, both
for the id-bearing div and (through the positional branch) its span child. -/
theorem xpath_own_id_or_positional_witness :
    generateXPath demoDoc2 [0, 0, 0] =
      (if demoSpan.idAttr ≠ "" then some ("//*[@id=\"" ++ demoSpan.idAttr ++ "\"]")
       else positionalXPathSpec demoDoc2 [0, 0, 0]) :=
  xpath_own_id_or_positional demoDoc2 [0, 0, 0] demoSpan rfl

/-- C4: the positional index is injective over same-tag siblings — it equals
one plus the number of preceding same-tag siblings, so two distinct same-tag
sibling positions receive indices differing by exactly the number of same-tag
siblings from the earlier position up to (excluding) the later one, and in
particular strictly ordered — and the sequence of (tag, index) pairs of the
fully positional path identifies each node uniquely relative to the root. -/
theorem positional_index_injective (cs : List Dom) (i j : Nat) (tag : String)
    (hij : i < j) (hi : i < cs.length) (hj : j < cs.length)
    (hti : cs[i].tag = tag) (_htj : cs[j].tag = tag)
    (root : Dom) (p q : List Nat) (ks : List (String × Nat))
    (hp : positionalKeys root p = some ks) (hq : positionalKeys root q = some ks) :
    codeSiblingIndex cs i tag = 1 + (cs.take i).countP (fun s => s.tag == tag) ∧
    codeSiblingIndex cs j tag
      = codeSiblingIndex cs i tag
        + ((cs.drop i).take (j - i)).countP (fun s => s.tag == tag) ∧
    codeSiblingIndex cs i tag < codeSiblingIndex cs j tag ∧
    p = q :=
  ⟨codeSiblingIndex_eq_spec cs i tag,
   codeSiblingIndex_diff cs (Nat.le_of_lt hij) tag,
   codeSiblingIndex_lt cs hij hi tag hti,
   positionalKeys_injective p root q ks hp hq⟩

/-- C4 witness: the `li` elements at positions 0 and 2 of the demo list, and
the concrete key sequence of the second one's positional path. -/
theorem positional_index_injective_witness :
    codeSiblingIndex demoUl.children 0 "LI"
        = 1 + (demoUl.children.take 0).countP (fun s => s.tag == "LI") ∧
    codeSiblingIndex demoUl.children 2 "LI"
        = codeSiblingIndex demoUl.children 0 "LI"
          + ((demoUl.children.drop 0).take 2).countP (fun s => s.tag == "LI") ∧
    codeSiblingIndex demoUl.children 0 "LI" < codeSiblingIndex demoUl.children 2 "LI" ∧
    ([0, 2] : List Nat) = [0, 2] :=
  positional_index_injective demoUl.children 0 2 "LI" (by decide) (by decide)
    (by decide) (by decide) (by decide) demoDoc3 [0, 2] [0, 2]
    [("UL", 1), ("LI", 2)] rfl rfl

/-! ### Action classification (C5) -/

/-- The element facts the classification code reads: tag name, `element.type`
(lowercased by the code; `""` when absent), current `value`, `placeholder`,
`checked` flag, the display texts of `selectedOptions`, and `textContent`. -/
structure FormFacts where
  tagName : String
  inputType : String
  value : String
  placeholder : String
  checked : Bool
  selectedTexts : List String
  textContent : String
deriving DecidableEq

/-- Embedding of the action-type refinement in
`ElementSelector.selectElement` (src/enscriber.user.js:661-677): for a
default `click`, input elements of text-like types become `input`,
checkbox/radio become `check`, textarea becomes `input`, select becomes
`select`, everything else keeps the incoming action type. -/
def detectActionType (e : FormFacts) (actionType : String) : String :=
  if actionType == "click" then
    let tagName := jsToLower e.tagName
    let inputType := jsToLower e.inputType
    if tagName == "input" then
      if ["text", "email", "password", "search", "tel", "url"].contains inputType then
        "input"
      else if ["checkbox", "radio"].contains inputType then
        "check"
      else actionType
    else if tagName == "textarea" then "input"
    else if tagName == "select" then "select"
    else actionType
  else actionType

/-- Embedding of `ElementSelector.getElementValue`
(src/enscriber.user.js:730-741): `input` takes `value || placeholder || ''`,
`check` reports `checked`/`unchecked`, `select` the first selected option's
text (or `''`), and the default case the trimmed `textContent` truncated to
50 characters (or `''` when `textContent` is falsy). -/
def getElementValue (e : FormFacts) (actionType : String) : String :=
  if actionType == "input" then
    if e.value ≠ "" then e.value else if e.placeholder ≠ "" then e.placeholder else ""
  else if actionType == "check" then
    if e.checked then "checked" else "unchecked"
  else if actionType == "select" then
    match e.selectedTexts with
    | t :: _ => t
    | [] => ""
  else
    if e.textContent ≠ "" then jsTake (jsTrim e.textContent) 50 else ""

/-- The classification performed for a default click capture in
`selectElement`: refine the action type from the element facts, then extract
the value for the refined type. -/
def classify (e : FormFacts) : String × String :=
  let t := detectActionType e "click"
  (t, getElementValue e t)

/-- The claim's refinement table, written from the specification's wording
(spec §4.5): a text/email/password/search/tel/url input yields `input` with
value = current value or placeholder; checkbox/radio yields `check` with
`checked`/`unchecked`; a textarea yields `input`; a select yields `select`
with the selected option's display text; any other node keeps `click` with
value = its own text content trimmed and truncated to at most 50
characters. -/
def classifySpec (e : FormFacts) : String × String :=
  let tag := jsToLower e.tagName
  let ty := jsToLower e.inputType
  if tag == "input" && ["text", "email", "password", "search", "tel", "url"].contains ty then
    ("input", if e.value ≠ "" then e.value else e.placeholder)
  else if tag == "input" && ["checkbox", "radio"].contains ty then
    ("check", if e.checked then "checked" else "unchecked")
  else if tag == "textarea" then
    ("input", if e.value ≠ "" then e.value else e.placeholder)
  else if tag == "select" then
    ("select", (e.selectedTexts.head?).getD "")
  else
    ("click", jsTake (jsTrim e.textContent) 50)

/-- Both value-extraction phrasings for text inputs agree: the source's
`value || placeholder || ''` equals the spec's value-or-placeholder. -/
theorem inputValue_eq (e : FormFacts) :
    (if e.value = "" then if e.placeholder = "" then "" else e.placeholder else e.value)
      = (if e.value = "" then e.placeholder else e.value) := by
  by_cases hv : e.value = ""
  · rw [if_pos hv, if_pos hv]
    by_cases hp : e.placeholder = ""
    · rw [if_pos hp, hp]
    · rw [if_neg hp]
  · rw [if_neg hv, if_neg hv]

/-- Both value-extraction phrasings for the default click case agree. -/
theorem clickValue_eq (e : FormFacts) :
    (if e.textContent ≠ "" then jsTake (jsTrim e.textContent) 50 else "")
      = jsTake (jsTrim e.textContent) 50 := by
  by_cases ht : e.textContent ≠ ""
  · rw [if_pos ht]
  · rw [if_neg ht]; rw [not_not] at ht; rw [ht]; rfl

/-- C5: action classification is total and deterministic (it is a function)
and agrees everywhere with the specification's refinement table: text-like
inputs yield `input` with value-or-placeholder, checkbox/radio yield `check`
with `checked`/`unchecked`, textarea yields `input`, select yields `select`
with the selected option's display text, and every other node keeps `click`
with its text content trimmed and truncated to at most 50 characters. -/
theorem classification_follows_table (e : FormFacts) : classify e = classifySpec e := by
  unfold classify classifySpec detectActionType getElementValue
  by_cases h1 : (jsToLower e.tagName == "input") = true
  · have h1p : jsToLower e.tagName = "input" := by simpa using h1
    rw [h1p]
    by_cases h2 :
        (["text", "email", "password", "search", "tel", "url"].contains
          (jsToLower e.inputType)) = true
    · simp only [List.contains_eq_any_beq, List.any_cons, List.any_nil,
        Bool.or_eq_true, beq_iff_eq, Bool.false_eq_true, or_false] at h2
      rcases h2 with h | h | h | h | h | h <;> rw [h] <;> simp [inputValue_eq e]
    · by_cases h3 : (["checkbox", "radio"].contains (jsToLower e.inputType)) = true
      · simp only [List.contains_eq_any_beq, List.any_cons, List.any_nil,
          Bool.or_eq_true, beq_iff_eq, Bool.false_eq_true, or_false] at h3
        simp at h2
        rcases h3 with h | h <;> rw [h] <;> rw [h] at h2 <;> simp [h2]
      · simp at h2 h3
        simp [h2, h3, clickValue_eq e]
  · simp at h1
    by_cases h4 : (jsToLower e.tagName == "textarea") = true
    · have h4p : jsToLower e.tagName = "textarea" := by simpa using h4
      rw [h4p]
      simp [inputValue_eq e]
    · simp at h4
      by_cases h5 : (jsToLower e.tagName == "select") = true
      · have h5p : jsToLower e.tagName = "select" := by simpa using h5
        rw [h5p]
        cases e.selectedTexts <;> simp
      · simp at h5
        simp [h1, h4, h5, clickValue_eq e]

/-! ### Recording session state machine (C6, C7, C9) -/

/-- Context snapshot recorded with each action
(src/enscriber.user.js:687-694): URL, title and viewport size. -/
structure ContextInfo where
  url : String
  title : String
  viewportWidth : Int
  viewportHeight : Int
deriving DecidableEq

/-- The fields of a captured network request that the modeled code reads. -/
structure NetworkRequestData where
  method : String
  url : String
deriving DecidableEq

/-- An action record as built by `selectElement`
(src/enscriber.user.js:680-695) or `addRequestToActions`
(src/enscriber.user.js:1550-1564): element actions carry metadata and a
value, network actions carry a request descriptor instead. -/
structure ActionRecord where
  id : String
  timestamp : Nat
  type : String
  element : Option ElementMetadata
  networkRequest : Option NetworkRequestData
  value : Option String
  notes : String
  context : ContextInfo
deriving DecidableEq

/-- A recording session (src/enscriber.user.js:1692-1707).  The settings and
metadata snapshots are omitted: every modeled operation carries them through
object spreads unchanged, and no claim mentions them. -/
structure Session where
  id : String
  name : String
  url : String
  startTime : Nat
  endTime : Option Nat
  actions : List ActionRecord
deriving DecidableEq

/-- `ENSCRIBER_CONFIG.modes.INACTIVE` (src/enscriber.user.js:47). -/
def modeInactive : String := "inactive"

/-- `ENSCRIBER_CONFIG.modes.AUTO_RECORDING` (src/enscriber.user.js:48). -/
def modeAuto : String := "auto_recording"

/-- `ENSCRIBER_CONFIG.modes.MANUAL_SELECTION` (src/enscriber.user.js:49). -/
def modeManual : String := "manual_selection"

/-- `ENSCRIBER_CONFIG.modes.PAUSED` (src/enscriber.user.js:50). -/
def modePaused : String := "paused"

/-- The `StateManager` fields the modeled operations read and write
(src/enscriber.user.js:228-252): mode, recording flags, the current session,
and the selected-element snapshot (captured metadata and timestamp; the live
DOM reference is not modeled).  The `ui` and `settings` sub-objects are
covered by the generic top-level-merge development below. -/
structure AppState where
  mode : String
  isRecording : Bool
  isPaused : Bool
  currentSession : Option Session
  selectedElement : Option (ElementMetadata × Nat)
deriving DecidableEq

/-- Embedding of `RecordingEngine.stopRecording`
(src/enscriber.user.js:1096-1123), the handler the state listener runs when
the mode becomes Inactive: when a current session exists it is stamped with
`endTime = Date.now()`, saved through `GM_setValue` (returned as the second
component), and kept in the state so actions persist until manually cleared;
otherwise nothing happens.  Listener detachment and the engine's private
`isRecording` flag live outside the modeled state. -/
def stopRecording (now : Nat) (st : AppState) : AppState × Option Session :=
  match st.currentSession with
  | some s =>
      let sessionData := { s with endTime := some now }
      ({ st with currentSession := some sessionData }, some sessionData)
  | none => (st, none)

/-- The stop path through the state machine: the UI sets
`{mode: INACTIVE, isRecording: false}` (as in `toggleRecording`,
src/enscriber.user.js:1137-1143) and the state listener dispatches
`handleModeChange` → `stopRecording`. -/
def stopViaModeChange (now : Nat) (st : AppState) : AppState × Option Session :=
  stopRecording now { st with mode := modeInactive, isRecording := false }

/-- Embedding of `EnscribeCore.stopSession` (src/enscriber.user.js:1724-1747):
warn and return when there is no current session; otherwise stamp `endTime`,
save the stamped session (second component), and set `{currentSession: null,
isRecording: false, mode: INACTIVE}` — which triggers `handleModeChange` →
`stopRecording` on the already-cleared state, a no-op. -/
def stopSession (now : Nat) (st : AppState) : AppState × Option Session :=
  match st.currentSession with
  | none => (st, none)
  | some s =>
      let sessionData := { s with endTime := some now }
      let st1 : AppState :=
        { st with currentSession := none, isRecording := false, mode := modeInactive }
      ((stopRecording now st1).1, some sessionData)

/-- Embedding of `EnscribeCore.pauseSession` (src/enscriber.user.js:1752-1766):
reject with a console warning (second component) when not recording,
otherwise set `{isPaused: true, mode: PAUSED}`.  The recording engine reacts
to the mode change by disarming capture listeners, outside the modeled
state. -/
def pauseSession (st : AppState) : AppState × Option String :=
  if st.isRecording = false then
    (st, some "Enscriber: No active session to pause")
  else
    ({ st with isPaused := true, mode := modePaused }, none)

/-- Embedding of `EnscribeCore.resumeSession`
(src/enscriber.user.js:1771-1785): reject with a console warning (second
component) when not paused, otherwise set `{isPaused: false,
mode: AUTO_RECORDING}`. -/
def resumeSession (st : AppState) : AppState × Option String :=
  if st.isPaused = false then
    (st, some "Enscriber: No paused session to resume")
  else
    ({ st with isPaused := false, mode := modeAuto }, none)

/-! ### Capture: exclusion walk and action append (C8, C9) -/

/-- The identity facts of one node of an ancestor chain that the exclusion
walk reads: `id`, `className` (`none` for a non-string `className`), and the
id of its shadow-root host when the node lives inside a shadow root (`none`
when its root node is the document). -/
structure UiNode where
  id : String
  className : Option String
  shadowHostId : Option String
deriving DecidableEq

/-- The `while (currentElement)` ancestor walk of
`ElementSelector.isExcludedElement` (src/enscriber.user.js:832-857), over the
chain from the element itself up to the root: truthy id containing
`enscriber`, truthy string className containing `enscriber`, the floating
panel id itself, or a shadow root hosted by the floating panel. -/
def excludedWalk : List UiNode → Bool
  | [] => false
  | n :: rest =>
      if n.id != "" && strIncludes n.id "enscriber" then true
      else if (match n.className with
        | some c => c != "" && strIncludes c "enscriber"
        | none => false) then true
      else if n.id == "enscriber-floating-panel" then true
      else if n.shadowHostId == some "enscriber-floating-panel" then true
      else excludedWalk rest

/-- One node matching any of the constructor's `excludeSelectors`
(src/enscriber.user.js:536-541): the panel or highlight-overlay ids, an id
prefixed `enscriber-`, or a className containing `enscriber-`. -/
def matchesExcludeSelector (n : UiNode) : Bool :=
  n.id == "enscriber-floating-panel" || n.id == "enscriber-highlight-overlay" ||
    n.id.startsWith "enscriber-" ||
    (match n.className with
      | some c => strIncludes c "enscriber-"
      | none => false)

/-- Embedding of `ElementSelector.isExcludedElement`
(src/enscriber.user.js:828-874): a null element is excluded; otherwise the
ancestor walk decides, with the `matches`/`closest` checks against the
exclude selectors as fallback (the `closest` lookup makes the fallback an
any-node-of-the-chain check). -/
def isExcludedElement (chain : List UiNode) : Bool :=
  match chain with
  | [] => true
  | _ :: _ =>
      if excludedWalk chain then true
      else chain.any matchesExcludeSelector

/-- What `handleClick` knows about the clicked element: the ancestor chain
(the element itself first) for the exclusion walk, the form facts for
classification, and the captured metadata. -/
structure ClickTarget where
  chain : List UiNode
  facts : FormFacts
  meta : ElementMetadata
deriving DecidableEq

/-- The bare `{ actions: [] }` fallback object used when no session exists
(src/enscriber.user.js:699 and 1548); its other fields are undefined and are
modeled by defaults. -/
def emptyFallbackSession : Session :=
  { id := "", name := "", url := "", startTime := 0, endTime := none, actions := [] }

/-- Embedding of the state effects of `ElementSelector.selectElement`
(src/enscriber.user.js:654-722) for a default click capture: refine the
action type, build the action record (fresh id `aid`, timestamp `now`),
append it to the current session's actions
(`[...currentSession.actions, actionRecord]`), and record the selected
element. -/
def selectElement (aid : String) (now : Nat) (ctx : ContextInfo)
    (tgt : ClickTarget) (st : AppState) : AppState :=
  let detectedActionType := detectActionType tgt.facts "click"
  let actionRecord : ActionRecord :=
    { id := aid, timestamp := now, type := detectedActionType,
      element := some tgt.meta, networkRequest := none,
      value := some (getElementValue tgt.facts detectedActionType),
      notes := "", context := ctx }
  let currentSession := st.currentSession.getD emptyFallbackSession
  { st with
      selectedElement := some (tgt.meta, now),
      currentSession :=
        some { currentSession with actions := currentSession.actions ++ [actionRecord] } }

/-- Embedding of `ElementSelector.handleClick`
(src/enscriber.user.js:623-633): nothing happens unless selection mode is
armed; the element under the cursor (when there is one) is selected only if
it is not excluded. -/
def handleClick (selectionMode : Bool) (target : Option ClickTarget)
    (aid : String) (now : Nat) (ctx : ContextInfo) (st : AppState) : AppState :=
  if selectionMode = false then st
  else
    match target with
    | none => st
    | some tgt =>
        if isExcludedElement tgt.chain then st
        else selectElement aid now ctx tgt st

/-- Embedding of `NetworkRequestMonitor.addRequestToActions`
(src/enscriber.user.js:1546-1576): build a network action record (notes =
"METHOD url") and append it to the current session's actions, with the same
`{actions: []}` fallback as `selectElement`. -/
def addRequestToActions (rid : String) (now : Nat) (ctx : ContextInfo)
    (req : NetworkRequestData) (actionType : String) (st : AppState) : AppState :=
  let actionRecord : ActionRecord :=
    { id := rid, timestamp := now, type := actionType,
      element := none, networkRequest := some req, value := none,
      notes := req.method ++ " " ++ req.url, context := ctx }
  let currentSession := st.currentSession.getD emptyFallbackSession
  { st with
      currentSession :=
        some { currentSession with actions := currentSession.actions ++ [actionRecord] } }

/-- A node carrying one of the tool's own UI markers, as the claim describes
them: an id containing the `enscriber` namespace, a string className
containing it, the floating-panel id itself, or a shadow root hosted by the
floating panel. -/
def uiMarker (n : UiNode) : Bool :=
  strIncludes n.id "enscriber" ||
    (match n.className with
      | some c => strIncludes c "enscriber"
      | none => false) ||
    n.id == "enscriber-floating-panel" ||
    n.shadowHostId == some "enscriber-floating-panel"

/-! ### State manager: top-level merge and copy-on-read (C10) -/

/-- Property lookup of a top-level key in a JavaScript object modeled as an
ordered key-value list. -/
def jsGet {α : Type} : List (String × α) → String → Option α
  | [], _ => none
  | p :: rest, k => if p.1 == k then some p.2 else jsGet rest k

/-- JavaScript object spread `{...o, ...u}`: the result holds `o`'s entries
except those whose key also occurs in `u`, followed by `u`'s entries — so
`u`'s keys override `o`'s. -/
def jsSpread {α : Type} (o u : List (String × α)) : List (String × α) :=
  o.filter (fun p => (jsGet u p.1).isNone) ++ u

/-- Embedding of `StateManager.setState` (src/enscriber.user.js:270-281):
`this.state = {...this.state, ...updates}`; the listener notification and the
auto-save that follow do not modify the merged state. -/
def setState {α : Type} (state updates : List (String × α)) : List (String × α) :=
  jsSpread state updates

/-- A heap of JavaScript objects; references are indices into the list. -/
structure JsHeap (α : Type) where
  objs : List (List (String × α))

/-- Dereference an object. -/
def readRef {α : Type} (h : JsHeap α) (r : Nat) : Option (List (String × α)) :=
  h.objs[r]?

/-- JavaScript property assignment `obj.k = v` through a reference:
overwrite the field in place, leaving every other object untouched. -/
def writeField {α : Type} (h : JsHeap α) (r : Nat) (k : String) (v : α) : JsHeap α :=
  match h.objs[r]? with
  | some o => { objs := h.objs.set r ((k, v) :: o.filter (fun p => p.1 != k)) }
  | none => h

/-- Embedding of `StateManager.getState` (src/enscriber.user.js:262-264):
`return {...this.state}` — allocate a fresh object whose top-level fields are
copied from the stored state object and return the new reference. -/
def getState {α : Type} (h : JsHeap α) (stateRef : Nat) : JsHeap α × Nat :=
  match readRef h stateRef with
  | some o => ({ objs := h.objs ++ [o] }, h.objs.length)
  | none => (h, h.objs.length)

/-! ### Fixtures for the state-machine claims -/

/-- A context snapshot fixture. -/
def demoCtx : ContextInfo := ⟨"https://example.test/", "Example", 1280, 720⟩

/-- A single recorded click action. -/
def demoRecord : ActionRecord :=
  { id := "action_1", timestamp := 50, type := "click",
    element := none, networkRequest := none, value := some "",
    notes := "", context := demoCtx }

/-- An open session holding one action. -/
def demoSession : Session :=
  { id := "s1", name := "Session 1", url := "https://example.test/",
    startTime := 40, endTime := none, actions := [demoRecord] }

/-- A state in auto-recording mode with the open demo session. -/
def demoActiveState : AppState :=
  { mode := modeAuto, isRecording := true, isPaused := false,
    currentSession := some demoSession, selectedElement := none }

/-- The initial inactive state. -/
def demoInactiveState : AppState :=
  { mode := modeInactive, isRecording := false, isPaused := false,
    currentSession := none, selectedElement := none }

/-! ### Claim theorems: state machine (C6, C7) -/

/-- C6 counterexample: from the active demo state (not Inactive, open
session), `EnscribeCore.stopSession` sets `currentSession` to null — the
session reference is not retained for export, contradicting the claim that
every stop retains it until explicitly cleared. -/
theorem stopSession_clears_reference :
    demoActiveState.mode ≠ modeInactive ∧
    (stopSession 100 demoActiveState).1.currentSession = none := by
  constructor
  · decide
  · rfl

/-- C6 (amended): from any state with a current session, both stop paths set
the mode to Inactive, stamp the session's `endTime` with the stop time (which
is at least `startTime` under a monotone clock), leave the action list — in
particular the action count — unchanged, and hand exactly the stamped session
to the persistence collaborator; the engine-level stop (the mode-change path)
retains the stamped session in the state for export, while
`EnscribeCore.stopSession` instead clears the current-session reference after
saving. -/
theorem stop_stamps_saves_and_clears (now : Nat) (st : AppState) (s : Session)
    (hs : st.currentSession = some s) (hclk : s.startTime ≤ now) :
    (stopViaModeChange now st).1.mode = modeInactive ∧
    (stopViaModeChange now st).1.currentSession = some { s with endTime := some now } ∧
    (stopViaModeChange now st).2 = some { s with endTime := some now } ∧
    (stopSession now st).1.mode = modeInactive ∧
    (stopSession now st).1.currentSession = none ∧
    (stopSession now st).2 = some { s with endTime := some now } ∧
    ({ s with endTime := some now }).actions = s.actions ∧
    ({ s with endTime := some now }).startTime ≤ now := by
  unfold stopViaModeChange stopSession stopRecording
  rw [hs]
  exact ⟨rfl, rfl, rfl, rfl, rfl, rfl, rfl, hclk⟩

/-- C6 witness: the amended theorem at the concrete active state. -/
theorem stop_stamps_saves_and_clears_witness :
    (stopViaModeChange 100 demoActiveState).1.mode = modeInactive ∧
    (stopViaModeChange 100 demoActiveState).1.currentSession
      = some { demoSession with endTime := some 100 } ∧
    (stopViaModeChange 100 demoActiveState).2
      = some { demoSession with endTime := some 100 } ∧
    (stopSession 100 demoActiveState).1.mode = modeInactive ∧
    (stopSession 100 demoActiveState).1.currentSession = none ∧
    (stopSession 100 demoActiveState).2
      = some { demoSession with endTime := some 100 } ∧
    ({ demoSession with endTime := some 100 }).actions = demoSession.actions ∧
    ({ demoSession with endTime := some 100 }).startTime ≤ 100 :=
  stop_stamps_saves_and_clears 100 demoActiveState demoSession rfl (by decide)

/-- C7 (divergence evaluation): the guards of `resumeSession` and
`pauseSession` test the `isPaused`/`isRecording` flags, and no stop path ever
resets `isPaused` (`stopSession` and the toggle stop clear only
`currentSession`, `isRecording` and `mode`).  So after pause followed by stop
the state is Inactive with a stale `isPaused = true`, and calling resume
there — resume while Inactive, the very example of an illegal transition —
is not rejected: no warning is emitted and the state changes to
auto-recording mode with no current session, instead of being left
unchanged. -/
theorem resume_from_inactive_not_rejected :
    ((stopSession 100 (pauseSession demoActiveState).1).1.mode = modeInactive ∧
     (stopSession 100 (pauseSession demoActiveState).1).1.isPaused = true ∧
     (stopSession 100 (pauseSession demoActiveState).1).1.currentSession = none) ∧
    (resumeSession (stopSession 100 (pauseSession demoActiveState).1).1).2 = none ∧
    (resumeSession (stopSession 100 (pauseSession demoActiveState).1).1).1
      ≠ (stopSession 100 (pauseSession demoActiveState).1).1 ∧
    (resumeSession (stopSession 100 (pauseSession demoActiveState).1).1).1.mode
      = modeAuto ∧
    (resumeSession (stopSession 100 (pauseSession demoActiveState).1).1).1.currentSession
      = none := by
  refine ⟨⟨rfl, rfl, rfl⟩, rfl, ?_, rfl, rfl⟩
  decide

/-! ### Exclusion-walk lemmas and claim C8 -/

/-- A string that contains a non-empty pattern is itself truthy. -/
theorem strIncludes_ne_empty (s pat : String) (hp : pat.data ≠ [])
    (h : strIncludes s pat = true) : (s != "") = true := by
  by_cases hs : s = ""
  · subst hs
    rw [strIncludes, charsInclude] at h
    rw [List.isEmpty_iff] at h
    exact absurd h hp
  · simpa using hs

/-- The head-step of the exclusion walk as a disjunction: the walk accepts a
non-empty chain exactly when the head carries one of the four checks or the
tail is accepted. -/
theorem excludedWalk_cons (n : UiNode) (rest : List UiNode) :
    excludedWalk (n :: rest)
      = ((n.id != "" && strIncludes n.id "enscriber") ||
         (match n.className with
           | some c => c != "" && strIncludes c "enscriber"
           | none => false) ||
         (n.id == "enscriber-floating-panel") ||
         (n.shadowHostId == some "enscriber-floating-panel") ||
         excludedWalk rest) := by
  rw [excludedWalk]
  rcases Bool.eq_false_or_eq_true (n.id != "" && strIncludes n.id "enscriber")
    with h1 | h1 <;>
  rcases Bool.eq_false_or_eq_true (match n.className with
    | some c => c != "" && strIncludes c "enscriber"
    | none => false) with h2 | h2 <;>
  rcases Bool.eq_false_or_eq_true (n.id == "enscriber-floating-panel") with h3 | h3 <;>
  rcases Bool.eq_false_or_eq_true (n.shadowHostId == some "enscriber-floating-panel")
    with h4 | h4 <;>
  simp [h1, h2, h3, h4]

/-- A chain containing a node with a UI marker is accepted by the walk. -/
theorem excludedWalk_of_marker (chain : List UiNode) (n : UiNode)
    (hmem : n ∈ chain) (hm : uiMarker n = true) : excludedWalk chain = true := by
  induction chain with
  | nil => cases hmem
  | cons hd rest ih =>
      rw [excludedWalk_cons]
      rcases List.mem_cons.mp hmem with heq | hmem2
      · subst heq
        rw [uiMarker] at hm
        simp only [Bool.or_eq_true] at hm
        rcases hm with ((h | h) | h) | h
        · have hc : (n.id != "" && strIncludes n.id "enscriber") = true := by
            rw [Bool.and_eq_true]
            exact ⟨strIncludes_ne_empty n.id "enscriber" (by decide) h, h⟩
          simp [hc]
        · cases hcn : n.className with
          | none => rw [hcn] at h; exact absurd h (by decide)
          | some c =>
              rw [hcn] at h
              have hc : (c != "" && strIncludes c "enscriber") = true := by
                rw [Bool.and_eq_true]
                exact ⟨strIncludes_ne_empty c "enscriber" (by decide) h, h⟩
              simp [hcn, hc]
        · simp [h]
        · simp [h]
      · simp [ih hmem2]

/-- C8: every node that is, or is contained in, the tool's own UI subtree —
some element of its ancestor chain has an id or string className containing
the `enscriber` namespace marker, is the floating panel itself, or lives in a
shadow root hosted by the floating panel — is classified as excluded, and a
click on it leaves the state (in particular the session's action list)
completely unchanged: no ActionRecord is produced. -/
theorem ui_subtree_click_excluded (tgt : ClickTarget) (n : UiNode)
    (hmem : n ∈ tgt.chain) (hmark : uiMarker n = true) :
    isExcludedElement tgt.chain = true ∧
    ∀ (selectionMode : Bool) (aid : String) (now : Nat) (ctx : ContextInfo)
      (st : AppState), handleClick selectionMode (some tgt) aid now ctx st = st := by
  have hwalk : excludedWalk tgt.chain = true := excludedWalk_of_marker tgt.chain n hmem hmark
  have hex : isExcludedElement tgt.chain = true := by
    cases hch : tgt.chain with
    | nil => rw [hch] at hmem; cases hmem
    | cons a b =>
        rw [hch] at hwalk
        simp only [isExcludedElement, hwalk, if_true]
  refine ⟨hex, fun selectionMode aid now ctx st => ?_⟩
  cases selectionMode with
  | false => rw [handleClick, if_pos rfl]
  | true =>
      rw [handleClick, if_neg (by decide)]
      simp only [hex, if_true]

/-! ### Fixtures for the capture claims -/

/-- A page node with ordinary id/class. -/
def demoPageNode : UiNode := ⟨"app", some "content", none⟩

/-- A node inside the tool's own panel: its className carries the namespace
marker. -/
def demoUiNode : UiNode := ⟨"", some "enscriber-panel-button", none⟩

/-- Captured metadata fixture. -/
def demoMeta : ElementMetadata :=
  { tagName := "button", id := none, className := none,
    textContent := some "Submit", attributes := [],
    position := ⟨0, 0, 10, 10⟩, isVisible := true,
    computedStyles := ⟨"block", "visible", "1", "auto"⟩,
    parentContext := none, xpath := "/html/body/button" }

/-- Form facts fixture for a plain button. -/
def demoFacts : FormFacts :=
  { tagName := "BUTTON", inputType := "", value := "", placeholder := "",
    checked := false, selectedTexts := [], textContent := "Submit" }

/-- A click target inside the tool's UI subtree. -/
def demoUiTarget : ClickTarget :=
  { chain := [demoUiNode, ⟨"enscriber-floating-panel", some "", none⟩],
    facts := demoFacts, meta := demoMeta }

/-- A click target on the page proper. -/
def demoTarget : ClickTarget :=
  { chain := [demoPageNode], facts := demoFacts, meta := demoMeta }

/-- A captured network request fixture. -/
def demoReq : NetworkRequestData := ⟨"GET", "https://api.example.test/items"⟩

/-- C8 witness: the theorem at the concrete in-panel target, clicked in armed
selection mode on the active state. -/
theorem ui_subtree_click_excluded_witness :
    isExcludedElement demoUiTarget.chain = true ∧
    handleClick true (some demoUiTarget) "a2" 77 demoCtx demoActiveState
      = demoActiveState :=
  ⟨(ui_subtree_click_excluded demoUiTarget demoUiNode (by decide) (by decide)).1,
   (ui_subtree_click_excluded demoUiTarget demoUiNode (by decide) (by decide)).2
     true "a2" 77 demoCtx demoActiveState⟩

/-! ### Claim C9: append-only capture -/

/-- C9: with a current session open, each capture — an element selection or a
network-request addition — appends exactly one ActionRecord at the end of the
session's action list: the new list is the old list followed by one record,
so every previously recorded action keeps its value and position and the
length grows by exactly one; and the session handed to persistence by the
engine stop carries the in-memory action list unchanged, preserving append
order exactly. -/
theorem capture_appends_one (st : AppState) (s : Session)
    (hs : st.currentSession = some s)
    (aid rid : String) (now : Nat) (ctx : ContextInfo)
    (tgt : ClickTarget) (req : NetworkRequestData) (actionType : String) :
    (∃ r, ((selectElement aid now ctx tgt st).currentSession.map Session.actions)
          = some (s.actions ++ [r])) ∧
    (∃ r, ((addRequestToActions rid now ctx req actionType st).currentSession.map
            Session.actions)
          = some (s.actions ++ [r])) ∧
    (∀ r : ActionRecord,
      (s.actions ++ [r]).take s.actions.length = s.actions ∧
      (s.actions ++ [r]).length = s.actions.length + 1) ∧
    ((stopRecording now st).2.map Session.actions = some s.actions) := by
  refine ⟨?_, ?_, ?_, ?_⟩
  · refine ⟨{
      id := aid, timestamp := now,
      type := detectActionType tgt.facts "click",
      element := some tgt.meta, networkRequest := none,
      value := some (getElementValue tgt.facts (detectActionType tgt.facts "click")),
      notes := "", context := ctx }, ?_⟩
    simp [selectElement, hs]
  · refine ⟨{
      id := rid, timestamp := now, type := actionType,
      element := none, networkRequest := some req, value := none,
      notes := req.method ++ " " ++ req.url, context := ctx }, ?_⟩
    simp [addRequestToActions, hs]
  · intro r
    exact ⟨List.take_left s.actions [r], by simp⟩
  · simp [stopRecording, hs]

/-- C9 witness: the theorem at the concrete active state and targets. -/
theorem capture_appends_one_witness :
    (∃ r, ((selectElement "a3" 80 demoCtx demoTarget demoActiveState).currentSession.map
            Session.actions)
          = some (demoSession.actions ++ [r])) ∧
    (∃ r, ((addRequestToActions "a4" 80 demoCtx demoReq "waitForResponse"
              demoActiveState).currentSession.map Session.actions)
          = some (demoSession.actions ++ [r])) ∧
    (∀ r : ActionRecord,
      (demoSession.actions ++ [r]).take demoSession.actions.length
          = demoSession.actions ∧
      (demoSession.actions ++ [r]).length = demoSession.actions.length + 1) ∧
    ((stopRecording 80 demoActiveState).2.map Session.actions
        = some demoSession.actions) :=
  capture_appends_one demoActiveState demoSession rfl "a3" "a4" 80 demoCtx
    demoTarget demoReq "waitForResponse"

/-! ### Claim C10: top-level merge and copy-on-read -/

/-- A key absent from the updates object is looked up in the original. -/
theorem jsGet_spread_of_none {α : Type} (o u : List (String × α)) (k : String)
    (hk : jsGet u k = none) : jsGet (jsSpread o u) k = jsGet o k := by
  induction o with
  | nil =>
      simp only [jsSpread, List.filter_nil, List.nil_append]
      rw [hk, jsGet]
  | cons p rest ih =>
      by_cases hpk : p.1 = k
      · have hu : jsGet u p.1 = none := by rw [hpk]; exact hk
        have hkeep : ((jsGet u p.1).isNone) = true := by rw [hu]; rfl
        simp only [jsSpread, List.filter_cons, hkeep, if_true, List.cons_append]
        rw [jsGet, jsGet, if_pos (by simpa using hpk), if_pos (by simpa using hpk)]
      · have hbk : (p.1 == k) = false := by simpa using hpk
        simp only [jsSpread, List.filter_cons]
        rcases Bool.eq_false_or_eq_true ((jsGet u p.1).isNone) with hp | hp
        · rw [if_pos (by simp [hp]), List.cons_append]
          conv_lhs => rw [jsGet]
          conv_rhs => rw [jsGet]
          rw [if_neg (by simp [hbk]), if_neg (by simp [hbk])]
          simpa [jsSpread] using ih
        · rw [if_neg (by simp [hp])]
          conv_rhs => rw [jsGet]
          rw [if_neg (by simp [hbk])]
          simpa [jsSpread] using ih

/-- C10: state updates merge only at the top level — after
`setState updates`, every top-level key that does not occur in `updates`
still maps to its old value (so a mode change can never clobber `settings`,
`ui` or any other field) — and `getState` returns a fresh shallow copy:
its reference differs from the state's, it holds the same fields, and
writing a field through it leaves the stored state object unchanged. -/
theorem setState_merges_top_level {α : Type} (state updates : List (String × α))
    (k : String) (hk : jsGet updates k = none)
    (h : JsHeap α) (r : Nat) (o : List (String × α)) (hr : readRef h r = some o)
    (k2 : String) (v2 : α) :
    jsGet (setState state updates) k = jsGet state k ∧
    (getState h r).2 ≠ r ∧
    readRef (getState h r).1 r = some o ∧
    readRef (getState h r).1 (getState h r).2 = some o ∧
    readRef (writeField (getState h r).1 (getState h r).2 k2 v2) r = some o := by
  have hlt : r < h.objs.length := by
    by_contra hge
    rw [readRef, List.getElem?_eq_none (by omega)] at hr
    exact absurd hr (by simp)
  have hget : getState h r = ({ objs := h.objs ++ [o] }, h.objs.length) := by
    rw [getState, hr]
  refine ⟨jsGet_spread_of_none state updates k hk, ?_, ?_, ?_, ?_⟩
  · rw [hget]
    omega
  · rw [hget, readRef]
    simp only [List.getElem?_append, if_pos hlt]
    exact hr
  · rw [hget, readRef]
    simp only [List.getElem?_append]
    rw [if_neg (by omega)]
    simp
  · have hnew : readRef (getState h r).1 (getState h r).2 = some o := by
      rw [hget, readRef]
      simp only [List.getElem?_append]
      rw [if_neg (by omega)]
      simp
    rw [writeField]
    rw [hget] at hnew ⊢
    rw [readRef] at hnew
    rw [hnew]
    simp only [readRef]
    rw [List.getElem?_set_ne (by omega)]
    simp only [List.getElem?_append, if_pos hlt]
    exact hr

/-- C10 witness: the theorem at a concrete state object, updates object and
heap. -/
theorem setState_merges_top_level_witness :
    jsGet (setState [("mode", 1), ("settings", 2)] [("mode", 3)]) "settings"
        = jsGet [("mode", 1), ("settings", 2)] "settings" ∧
    (getState (JsHeap.mk [[("mode", 1)]]) 0).2 ≠ 0 ∧
    readRef (getState (JsHeap.mk [[("mode", 1)]]) 0).1 0 = some [("mode", 1)] ∧
    readRef (getState (JsHeap.mk [[("mode", 1)]]) 0).1
        (getState (JsHeap.mk [[("mode", 1)]]) 0).2 = some [("mode", 1)] ∧
    readRef (writeField (getState (JsHeap.mk [[("mode", 1)]]) 0).1
        (getState (JsHeap.mk [[("mode", 1)]]) 0).2 "mode" 9) 0 = some [("mode", 1)] :=
  setState_merges_top_level [("mode", 1), ("settings", 2)] [("mode", 3)]
    "settings" rfl (JsHeap.mk [[("mode", 1)]]) 0 [("mode", 1)] rfl "mode" 9

end Enscriber
